import Mathlib

/-!
Shallow embedding of the account-identity reconciliation engine of the
firebase-auth repository.

The embedded code comes from:
  src/backend/src/services/userSearchService.ts
    (getEmailFromUser, findUserByEmail, getAccountType)
  src/backend/src/services/accountLinkService.ts
    (checkAndLinkAccounts, handlePasswordToSocialLink, linkAccounts,
     and the verification-code store: storeCode, verifyCode)

The external Firebase Auth backend (the IdP backend) is modelled as an
explicit state: the list of user records, plus a set of attach calls the
backend rejects (modelling FEDERATED_USER_ID_ALREADY_LINKED-style
failures), plus a log of the mutating collaborator calls that were issued
(deleteUser, updateUser-with-providerToLink, createCustomToken), which is
what the temporal claims about call ordering are stated over.  Fallible
collaborator calls return an Except value together with the updated state;
state changes made before a throw persist, exactly as they do against the
real backend.
-/

namespace FirebaseAuth

/-- Provider record attached to an account: providerId is the provider
kind (password, google.com, facebook.com, ...), uid is the provider-side
user id, email the provider-reported email (may be absent). -/
structure ProviderInfo where
  providerId : String
  uid : String
  email : Option String
deriving Repr, DecidableEq

/-- User record of the IdP backend: uid is the account id, email the
top-level email (may be absent), providerData the attached provider
records. -/
structure UserRecord where
  uid : String
  email : Option String
  providerData : List ProviderInfo
deriving Repr, DecidableEq

/-- Error thrown by a collaborator call, with a Firebase-style code and a
human-readable message. -/
structure Err where
  code : String
  message : String
deriving Repr, DecidableEq

/-- The user-not-found error of the Firebase Admin SDK. -/
def userNotFoundErr : Err :=
  { code := "auth/user-not-found"
  , message := "There is no user record corresponding to the provided identifier." }

/-- Mutating collaborator calls recorded in the call log. -/
inductive Event where
  | deleteUser (uid : String)
  | attachProvider (targetUid : String) (providerId : String) (providerUid : String)
  | createCustomToken (uid : String)
deriving Repr, DecidableEq

/-- State of the external IdP backend together with the call log. -/
structure FbState where
  users : List UserRecord
  attachFails : List (String × String)
  trace : List Event
deriving Repr, DecidableEq

/-- Backend lookup of a user record by account uid. -/
def lookupByUid (users : List UserRecord) (uid : String) : Option UserRecord :=
  users.find? (fun u => u.uid == uid)

/-- Backend lookup of a user record by the top-level email field only
(auth.getUserByEmail). -/
def lookupByTopEmail (users : List UserRecord) (email : String) : Option UserRecord :=
  users.find? (fun u => u.email == some email)

/-- Removal of a user record by account uid. -/
def removeUid (users : List UserRecord) (uid : String) : List UserRecord :=
  users.filter (fun u => u.uid != uid)

/-- auth.deleteUser: the call is logged, then the account is removed;
deleting a uid with no record throws user-not-found. -/
def deleteUserRun (uid : String) (s : FbState) : Except Err Unit × FbState :=
  let s1 : FbState := { s with trace := s.trace ++ [Event.deleteUser uid] }
  match lookupByUid s.users uid with
  | some _ => (Except.ok (), { s1 with users := removeUid s1.users uid })
  | none => (Except.error userNotFoundErr, s1)

/-- auth.updateUser with providerToLink: the call is logged; it fails if
the target account does not exist or the backend rejects the attachment
(attachFails); otherwise the provider record is appended to the target
account. -/
def attachProviderRun (targetUid providerId providerUid : String) (s : FbState) :
    Except Err Unit × FbState :=
  let s1 : FbState := { s with trace := s.trace ++ [Event.attachProvider targetUid providerId providerUid] }
  match lookupByUid s.users targetUid with
  | none => (Except.error userNotFoundErr, s1)
  | some _ =>
    if s.attachFails.contains (targetUid, providerId) then
      (Except.error { code := "auth/invalid-provider-data"
                    , message := "FEDERATED_USER_ID_ALREADY_LINKED" }, s1)
    else
      (Except.ok (),
       { s1 with users := s1.users.map (fun v =>
           if v.uid == targetUid then
             { v with providerData := v.providerData ++ [⟨providerId, providerUid, none⟩] }
           else v) })

/-- Token string auth.createCustomToken mints for an account uid. -/
def mkCustomToken (uid : String) : String := "custom-token-for:" ++ uid

/-- auth.createCustomToken: local signing, always succeeds; the call is
logged. -/
def createCustomTokenRun (uid : String) (s : FbState) : String × FbState :=
  (mkCustomToken uid, { s with trace := s.trace ++ [Event.createCustomToken uid] })

/-- getEmailFromUser of userSearchService.ts: the top-level email if
present, else the first provider email found among the provider records. -/
def getEmailFromUser (u : UserRecord) : Option String :=
  match u.email with
  | some e => some e
  | none => u.providerData.findSome? (fun p => p.email)

/-- Account classification of getAccountType in userSearchService.ts. -/
structure AccountType where
  hasPassword : Bool
  hasSocial : Bool
deriving Repr, DecidableEq

/-- getAccountType of userSearchService.ts. -/
def getAccountType (u : UserRecord) : AccountType :=
  let providers := u.providerData.map (fun p => p.providerId)
  { hasPassword := providers.contains "password"
  , hasSocial := providers.any (fun p => p != "password") }

/-- Scan of the full user list in findUserByEmail: skip the excluded uid,
return the first user whose effective email (getEmailFromUser) equals the
searched email. -/
def scanForEmail (email : String) (excludeUid : Option String) :
    List UserRecord → Option UserRecord
  | [] => none
  | u :: rest =>
    if excludeUid == some u.uid then scanForEmail email excludeUid rest
    else if getEmailFromUser u == some email then some u
    else scanForEmail email excludeUid rest

/-- findUserByEmail of userSearchService.ts: first the direct
auth.getUserByEmail lookup (returned unless it is the excluded uid), and
on user-not-found, or when the direct hit is excluded, the fallback scan
over all users comparing effective emails. -/
def findUserByEmail (users : List UserRecord) (email : String)
    (excludeUid : Option String) : Option UserRecord :=
  match lookupByTopEmail users email with
  | some u =>
    if excludeUid == some u.uid then scanForEmail email excludeUid users
    else some u
  | none => scanForEmail email excludeUid users

/-- Result record returned by the account-link service. -/
structure LinkResult where
  success : Bool
  linked : Bool
  customToken : Option String := none
  message : String
  needsVerification : Option Bool := none
  providers : Option (List String) := none
  email : Option String := none
deriving Repr, DecidableEq

/-- Link direction marker of accountLinkService.ts. -/
inductive LinkType where
  | socialIntoPassword
  | socialIntoSocial
deriving Repr, DecidableEq

/-- Provider records of the source account that linkAccounts will attach
to the target: every provider record whose kind is not password, as
(providerId, provider uid) pairs. -/
def providersToLink (u : UserRecord) : List (String × String) :=
  (u.providerData.filter (fun p => p.providerId != "password")).map
    (fun p => (p.providerId, p.uid))

/-- Attachment loop of linkAccounts: each updateUser call is wrapped in
try/catch, a failure is only logged, so the loop always continues to the
next provider record. -/
def linkProvidersLoop (targetUid : String) :
    List (String × String) → FbState → FbState
  | [], s => s
  | (pid, puid) :: rest, s =>
    match attachProviderRun targetUid pid puid s with
    | (_, s1) => linkProvidersLoop targetUid rest s1

/-- Success message of linkAccounts, chosen by the link direction. -/
def linkSuccessMessage (linkType : LinkType) : String :=
  match linkType with
  | LinkType.socialIntoPassword => "Social account linked into password account"
  | LinkType.socialIntoSocial => "Social accounts linked"

/-- linkAccounts of accountLinkService.ts: delete the source account
first to release provider uids, then attach its non-password providers to
the target, then mint a custom token for the target. -/
def linkAccounts (sourceUid targetUid : String) (sourceUser : UserRecord)
    (linkType : LinkType) (s : FbState) : Except Err LinkResult × FbState :=
  match deleteUserRun sourceUid s with
  | (Except.error e, s1) => (Except.error e, s1)
  | (Except.ok _, s1) =>
    let s2 := linkProvidersLoop targetUid (providersToLink sourceUser) s1
    match createCustomTokenRun targetUid s2 with
    | (customToken, s3) =>
      (Except.ok
        { success := true, linked := true, customToken := some customToken
        , message := linkSuccessMessage linkType }, s3)

/-- handlePasswordToSocialLink of accountLinkService.ts: delete the newly
created password account and ask for email verification, reporting the
social providers already on the surviving account. -/
def handlePasswordToSocialLink (passwordUid : String) (socialUser : UserRecord)
    (email : String) (s : FbState) : Except Err LinkResult × FbState :=
  let socialProviders :=
    (socialUser.providerData.filter (fun p => p.providerId != "password")).map
      (fun p => p.providerId)
  match deleteUserRun passwordUid s with
  | (Except.error e, s1) => (Except.error e, s1)
  | (Except.ok _, s1) =>
    (Except.ok
      { success := true, linked := false, needsVerification := some true
      , providers := some socialProviders, email := some email
      , message := "This email is already registered with "
          ++ String.intercalate ", " socialProviders
          ++ ". Please verify your email to add a password." }, s1)

/-- Body of checkAndLinkAccounts (everything inside its try block):
get the current user, derive the effective email, search for another
account with the same email, and dispatch on the three link cases. -/
def checkAndLinkAccountsBody (uid : String) (s : FbState) :
    Except Err LinkResult × FbState :=
  match lookupByUid s.users uid with
  | none => (Except.error userNotFoundErr, s)
  | some currentUser =>
    match getEmailFromUser currentUser with
    | none =>
      (Except.ok { success := true, linked := false
                 , message := "No email to check for link" }, s)
    | some email =>
      let ct := getAccountType currentUser
      match findUserByEmail s.users email (some uid) with
      | none =>
        (Except.ok { success := true, linked := false
                   , message := "No other account found to link with" }, s)
      | some duplicateAccount =>
        let tt := getAccountType duplicateAccount
        if !ct.hasPassword && tt.hasPassword then
          linkAccounts uid duplicateAccount.uid currentUser LinkType.socialIntoPassword s
        else if ct.hasPassword && !tt.hasPassword && tt.hasSocial then
          handlePasswordToSocialLink uid duplicateAccount email s
        else if !ct.hasPassword && ct.hasSocial && !tt.hasPassword && tt.hasSocial then
          linkAccounts uid duplicateAccount.uid currentUser LinkType.socialIntoSocial s
        else
          (Except.ok { success := true, linked := false
                     , message := "No link scenario matched" }, s)

/-- checkAndLinkAccounts of accountLinkService.ts: the whole body runs
inside try/catch, so every thrown error is converted to an in-band
failure result with the error message (or a fallback when the message is
empty, mirroring error.message followed by the JS or-else operator). -/
def checkAndLinkAccounts (uid : String) (s : FbState) : LinkResult × FbState :=
  match checkAndLinkAccountsBody uid s with
  | (Except.ok r, s1) => (r, s1)
  | (Except.error e, s1) =>
    ({ success := false, linked := false
     , message := if e.message == "" then "Failed to check/link accounts" else e.message }, s1)

/-! Verification-code store (verificationStore part of the service file). -/

/-- Lower-casing of a string, character by character, modelling the JS
toLowerCase call applied to email keys (identical on ASCII emails). -/
def toLower (s : String) : String := ⟨s.data.map Char.toLower⟩

/-- Stored verification code with its absolute expiry time in
milliseconds. -/
structure StoredCode where
  code : String
  expiresAt : Nat
deriving Repr, DecidableEq

/-- The in-memory code store: a map from normalized email to stored code,
modelled as an association list with unique keys. -/
def CodeStore := List (String × StoredCode)

/-- Map.get of the code store. -/
def storeGet (m : CodeStore) (k : String) : Option StoredCode :=
  (m.find? (fun kv => kv.1 == k)).map (fun kv => kv.2)

/-- Map.delete of the code store. -/
def storeErase (m : CodeStore) (k : String) : CodeStore :=
  m.filter (fun kv => kv.1 != k)

/-- Map.set of the code store (one entry per key). -/
def storeSet (m : CodeStore) (k : String) (v : StoredCode) : CodeStore :=
  (k, v) :: storeErase m k

/-- Code lifetime: 5 minutes in milliseconds. -/
def CODE_EXPIRY_MS : Nat := 5 * 60 * 1000

/-- storeCode of the verification store: keyed by the lower-cased email,
expiring CODE_EXPIRY_MS after now, overwriting any prior entry. -/
def storeCode (now : Nat) (email code : String) (m : CodeStore) : CodeStore :=
  storeSet m (toLower email) { code := code, expiresAt := now + CODE_EXPIRY_MS }

/-- Test for an attach call in the call log. -/
def isAttachEvent (e : Event) : Bool :=
  match e with
  | Event.attachProvider _ _ _ => true
  | _ => false

/-- The attach calls of a call log, in order. -/
def attachEventsOf (tr : List Event) : List Event :=
  tr.filter isAttachEvent

/-! Concrete fixtures used by witnesses and counterexamples. -/

/-- Google provider record reporting email user@example.com. -/
def recGoogle : ProviderInfo := ⟨"google.com", "g-1", some "user@example.com"⟩

/-- Facebook provider record reporting email user@example.com. -/
def recFacebook : ProviderInfo := ⟨"facebook.com", "f-1", some "user@example.com"⟩

/-- Password provider record for user@example.com. -/
def recPassword : ProviderInfo := ⟨"password", "p-1", some "user@example.com"⟩

/-- Social-only account whose email lives only in its provider record. -/
def acctSocial : UserRecord := ⟨"uid-social", none, [recGoogle]⟩

/-- Password account with a top-level email. -/
def acctPassword : UserRecord := ⟨"uid-pw", some "user@example.com", [recPassword]⟩

/-- Social-only account holding two social provider records. -/
def acctTwoSocial : UserRecord := ⟨"uid-two", none, [recGoogle, recFacebook]⟩

/-- Backend state holding the social account and the password account. -/
def stPair : FbState := ⟨[acctSocial, acctPassword], [], []⟩

/-- Backend state after merging the social account into the password
account (the losing account is gone). -/
def stMerged : FbState :=
  (linkAccounts "uid-social" "uid-pw" acctSocial LinkType.socialIntoPassword stPair).2

/-- Backend state where the two-provider social account coexists with the
password account and the backend rejects attaching google.com to the
password account. -/
def stTwo : FbState := ⟨[acctTwoSocial, acctPassword], [("uid-pw", "google.com")], []⟩

/-- Empty backend state. -/
def stEmpty : FbState := ⟨[], [], []⟩

/-- verifyCode of the verification store (the consume operation): looks
up the entry under the lower-cased email; no entry gives false; an
expired entry is deleted and gives false; a mismatched code gives false;
otherwise the entry is deleted (one-time use) and the result is true. -/
def verifyCode (now : Nat) (email code : String) (m : CodeStore) : Bool × CodeStore :=
  let normalizedEmail := toLower email
  match storeGet m normalizedEmail with
  | none => (false, m)
  | some stored =>
    if now > stored.expiresAt then (false, storeErase m normalizedEmail)
    else if stored.code != code then (false, m)
    else (true, storeErase m normalizedEmail)

/-- Code store holding one code issued at time 0 for User@Example.com. -/
def sampleStore : CodeStore := storeCode 0 "User@Example.com" "123456" []

/-- Backend state holding only the social account. -/
def stSolo : FbState := ⟨[acctSocial], [], []⟩

/-! Helper lemmas about the collaborator primitives. -/

theorem deleteUserRun_eq_ok (s : FbState) (uid : String) (u0 : UserRecord)
    (h : lookupByUid s.users uid = some u0) :
    deleteUserRun uid s =
      (Except.ok (), { users := removeUid s.users uid, attachFails := s.attachFails
                     , trace := s.trace ++ [Event.deleteUser uid] }) := by
  unfold deleteUserRun
  rw [h]

theorem deleteUserRun_eq_err (s : FbState) (uid : String)
    (h : lookupByUid s.users uid = none) :
    deleteUserRun uid s =
      (Except.error userNotFoundErr, { s with trace := s.trace ++ [Event.deleteUser uid] }) := by
  unfold deleteUserRun
  rw [h]

theorem attachProviderRun_trace (s : FbState) (t p pu : String) :
    (attachProviderRun t p pu s).2.trace = s.trace ++ [Event.attachProvider t p pu] := by
  unfold attachProviderRun
  cases h : lookupByUid s.users t
  · rfl
  · cases hf : s.attachFails.contains (t, p) <;> rfl

theorem linkProvidersLoop_trace (t : String) (ps : List (String × String)) :
    ∀ s : FbState, (linkProvidersLoop t ps s).trace
      = s.trace ++ ps.map (fun q => Event.attachProvider t q.1 q.2) := by
  induction ps with
  | nil => intro s; simp [linkProvidersLoop]
  | cons q rest ih =>
    intro s
    obtain ⟨pid, puid⟩ := q
    simp [linkProvidersLoop, ih, attachProviderRun_trace, List.append_assoc]

theorem any_uid_attachMap (l : List UserRecord) (t pid puid x : String) :
    (l.map (fun v => if v.uid == t
        then { v with providerData := v.providerData ++ [⟨pid, puid, none⟩] } else v)).any
      (fun u => u.uid == x)
    = l.any (fun u => u.uid == x) := by
  induction l with
  | nil => rfl
  | cons v rest ih =>
    simp only [List.map_cons, List.any_cons, ih]
    by_cases hv : v.uid = t
    · have hveq : (v.uid == t) = true := by simp [hv]
      rw [if_pos hveq]
    · have hvf : ¬ ((v.uid == t) = true) := by simp [hv]
      rw [if_neg hvf]

theorem attachProviderRun_users_any (s : FbState) (t p pu x : String) :
    ((attachProviderRun t p pu s).2.users).any (fun u => u.uid == x)
      = s.users.any (fun u => u.uid == x) := by
  unfold attachProviderRun
  cases h : lookupByUid s.users t
  · rfl
  · cases hf : s.attachFails.contains (t, p)
    · exact any_uid_attachMap s.users t p pu x
    · rfl

theorem linkProvidersLoop_users_any (t x : String) (ps : List (String × String)) :
    ∀ s : FbState, ((linkProvidersLoop t ps s).users).any (fun u => u.uid == x)
      = s.users.any (fun u => u.uid == x) := by
  induction ps with
  | nil => intro s; rfl
  | cons q rest ih =>
    intro s
    obtain ⟨pid, puid⟩ := q
    simp [linkProvidersLoop, ih, attachProviderRun_users_any]

theorem removeUid_cons (v : UserRecord) (rest : List UserRecord) (x : String) :
    removeUid (v :: rest) x =
      if v.uid == x then removeUid rest x else v :: removeUid rest x := by
  simp only [removeUid, List.filter_cons, bne]
  cases hv : v.uid == x <;> simp

theorem removeUid_any_self (l : List UserRecord) (x : String) :
    (removeUid l x).any (fun u => u.uid == x) = false := by
  induction l with
  | nil => rfl
  | cons v rest ih =>
    rw [removeUid_cons]
    cases hv : v.uid == x
    · simp [List.any_cons, hv, ih]
    · simp [ih]

theorem removeUid_any_other (l : List UserRecord) (x y : String) (h : y ≠ x) :
    (removeUid l x).any (fun u => u.uid == y) = l.any (fun u => u.uid == y) := by
  induction l with
  | nil => rfl
  | cons v rest ih =>
    rw [removeUid_cons]
    cases hv : v.uid == x
    · simp [List.any_cons, ih]
    · have hvx : v.uid = x := eq_of_beq hv
      have hxy : (v.uid == y) = false :=
        beq_eq_false_iff_ne.mpr (hvx ▸ Ne.symm h)
      simp [List.any_cons, hxy, ih]

/-! Helper lemmas about email lookup. -/

theorem getEmailFromUser_of_top (u : UserRecord) (e : String) (h : u.email = some e) :
    getEmailFromUser u = some e := by
  unfold getEmailFromUser
  rw [h]

theorem lookupByTopEmail_sound (users : List UserRecord) (e : String) (u : UserRecord)
    (h : lookupByTopEmail users e = some u) : u ∈ users ∧ u.email = some e := by
  unfold lookupByTopEmail at h
  have hp := List.find?_some h
  exact ⟨List.mem_of_find?_eq_some h, eq_of_beq hp⟩

theorem scanForEmail_sound (e : String) (ex : Option String) :
    ∀ (l : List UserRecord) (u : UserRecord), scanForEmail e ex l = some u →
      u ∈ l ∧ ex ≠ some u.uid ∧ getEmailFromUser u = some e := by
  intro l
  induction l with
  | nil => intro u h; exact absurd h (by simp [scanForEmail])
  | cons v rest ih =>
    intro u h
    simp only [scanForEmail] at h
    by_cases h1 : (ex == some v.uid) = true
    · rw [if_pos h1] at h
      obtain ⟨hm, hne, he⟩ := ih u h
      exact ⟨List.mem_cons_of_mem v hm, hne, he⟩
    · rw [if_neg h1] at h
      by_cases h2 : (getEmailFromUser v == some e) = true
      · rw [if_pos h2] at h
        obtain rfl := Option.some.inj h
        refine ⟨List.mem_cons_self v rest, ?_, eq_of_beq h2⟩
        intro hc
        exact h1 (by rw [hc]; exact beq_self_eq_true _)
      · rw [if_neg h2] at h
        obtain ⟨hm, hne, he⟩ := ih u h
        exact ⟨List.mem_cons_of_mem v hm, hne, he⟩

theorem scanForEmail_none (e : String) (ex : Option String) :
    ∀ (l : List UserRecord), scanForEmail e ex l = none →
      ∀ u ∈ l, ex ≠ some u.uid → getEmailFromUser u ≠ some e := by
  intro l
  induction l with
  | nil => intro _ u hu; cases hu
  | cons v rest ih =>
    intro h u hu hne
    simp only [scanForEmail] at h
    by_cases h1 : (ex == some v.uid) = true
    · rw [if_pos h1] at h
      rcases List.mem_cons.mp hu with rfl | hu2
      · exact absurd (eq_of_beq h1) hne
      · exact ih h u hu2 hne
    · rw [if_neg h1] at h
      by_cases h2 : (getEmailFromUser v == some e) = true
      · rw [if_pos h2] at h; cases h
      · rw [if_neg h2] at h
        rcases List.mem_cons.mp hu with rfl | hu2
        · intro hc; exact h2 (by rw [hc]; exact beq_self_eq_true _)
        · exact ih h u hu2 hne

theorem findUserByEmail_sound (users : List UserRecord) (e : String) (ex : Option String)
    (u : UserRecord) (h : findUserByEmail users e ex = some u) :
    u ∈ users ∧ ex ≠ some u.uid ∧ getEmailFromUser u = some e := by
  cases hd : lookupByTopEmail users e with
  | none =>
    simp only [findUserByEmail, hd] at h
    exact scanForEmail_sound e ex users u h
  | some v =>
    simp only [findUserByEmail, hd] at h
    by_cases h1 : (ex == some v.uid) = true
    · rw [if_pos h1] at h
      exact scanForEmail_sound e ex users u h
    · rw [if_neg h1] at h
      obtain rfl := Option.some.inj h
      obtain ⟨hm, he⟩ := lookupByTopEmail_sound users e _ hd
      exact ⟨hm, fun hc => h1 (by rw [hc]; exact beq_self_eq_true _),
        getEmailFromUser_of_top _ _ he⟩

theorem findUserByEmail_none_complete (users : List UserRecord) (e : String)
    (ex : Option String) (h : findUserByEmail users e ex = none) :
    ∀ u ∈ users, ex ≠ some u.uid → getEmailFromUser u ≠ some e := by
  cases hd : lookupByTopEmail users e with
  | none =>
    simp only [findUserByEmail, hd] at h
    exact scanForEmail_none e ex users h
  | some v =>
    simp only [findUserByEmail, hd] at h
    by_cases h1 : (ex == some v.uid) = true
    · rw [if_pos h1] at h
      exact scanForEmail_none e ex users h
    · rw [if_neg h1] at h
      cases h

theorem findUserByEmail_direct_hit (users : List UserRecord) (e : String)
    (ex : Option String) (v : UserRecord) (hd : lookupByTopEmail users e = some v)
    (hne : ex ≠ some v.uid) : findUserByEmail users e ex = some v := by
  simp only [findUserByEmail, hd]
  rw [if_neg (by simpa using hne)]

theorem findUserByEmail_fallback (users : List UserRecord) (e : String)
    (ex : Option String) (hd : lookupByTopEmail users e = none) :
    findUserByEmail users e ex = scanForEmail e ex users := by
  simp only [findUserByEmail, hd]

/-! Helper lemmas about linkAccounts and the service dispatch. -/

theorem linkAccounts_eq_ok (s : FbState) (src tgt : String) (u u0 : UserRecord)
    (lt : LinkType) (h : lookupByUid s.users src = some u0) :
    linkAccounts src tgt u lt s =
      (Except.ok { success := true, linked := true
                 , customToken := some (mkCustomToken tgt)
                 , message := linkSuccessMessage lt },
       let s2 := linkProvidersLoop tgt (providersToLink u)
         { users := removeUid s.users src, attachFails := s.attachFails
         , trace := s.trace ++ [Event.deleteUser src] }
       { s2 with trace := s2.trace ++ [Event.createCustomToken tgt] }) := by
  unfold linkAccounts
  rw [deleteUserRun_eq_ok s src u0 h]
  rfl

theorem linkAccounts_eq_err (s : FbState) (src tgt : String) (u : UserRecord)
    (lt : LinkType) (h : lookupByUid s.users src = none) :
    linkAccounts src tgt u lt s =
      (Except.error userNotFoundErr, { s with trace := s.trace ++ [Event.deleteUser src] }) := by
  unfold linkAccounts
  rw [deleteUserRun_eq_err s src h]

theorem linkAccounts_trace_ok (s : FbState) (src tgt : String) (u u0 : UserRecord)
    (lt : LinkType) (h : lookupByUid s.users src = some u0) :
    (linkAccounts src tgt u lt s).2.trace =
      s.trace ++ Event.deleteUser src ::
        ((providersToLink u).map (fun q => Event.attachProvider tgt q.1 q.2)
          ++ [Event.createCustomToken tgt]) := by
  rw [linkAccounts_eq_ok s src tgt u u0 lt h]
  simp [linkProvidersLoop_trace]

theorem linkAccounts_users_any (s : FbState) (src tgt : String) (u u0 : UserRecord)
    (lt : LinkType) (x : String) (h : lookupByUid s.users src = some u0) :
    ((linkAccounts src tgt u lt s).2.users).any (fun v => v.uid == x)
      = (removeUid s.users src).any (fun v => v.uid == x) := by
  rw [linkAccounts_eq_ok s src tgt u u0 lt h]
  simp [linkProvidersLoop_users_any]

theorem handlePasswordToSocialLink_eq_ok (s : FbState) (uid : String)
    (dup : UserRecord) (email : String) (u0 : UserRecord)
    (h : lookupByUid s.users uid = some u0) :
    handlePasswordToSocialLink uid dup email s =
      (Except.ok { success := true, linked := false, customToken := none
                 , message := "This email is already registered with "
                     ++ String.intercalate ", "
                         ((dup.providerData.filter (fun p => p.providerId != "password")).map
                           (fun p => p.providerId))
                     ++ ". Please verify your email to add a password."
                 , needsVerification := some true
                 , providers := some ((dup.providerData.filter
                     (fun p => p.providerId != "password")).map (fun p => p.providerId))
                 , email := some email },
       { users := removeUid s.users uid, attachFails := s.attachFails
       , trace := s.trace ++ [Event.deleteUser uid] }) := by
  unfold handlePasswordToSocialLink
  rw [deleteUserRun_eq_ok s uid u0 h]

theorem checkAndLinkAccounts_of_body (uid : String) (s : FbState) (r : LinkResult)
    (s1 : FbState) (h : checkAndLinkAccountsBody uid s = (Except.ok r, s1)) :
    checkAndLinkAccounts uid s = (r, s1) := by
  unfold checkAndLinkAccounts
  rw [h]

theorem body_case1 (uid : String) (s : FbState) (cu dup : UserRecord) (email : String)
    (h1 : lookupByUid s.users uid = some cu)
    (h2 : getEmailFromUser cu = some email)
    (h3 : findUserByEmail s.users email (some uid) = some dup)
    (hcp : (getAccountType cu).hasPassword = false)
    (hdp : (getAccountType dup).hasPassword = true) :
    checkAndLinkAccountsBody uid s
      = linkAccounts uid dup.uid cu LinkType.socialIntoPassword s := by
  unfold checkAndLinkAccountsBody
  simp [h1, h2, h3, hcp, hdp]

theorem body_case2 (uid : String) (s : FbState) (cu dup : UserRecord) (email : String)
    (h1 : lookupByUid s.users uid = some cu)
    (h2 : getEmailFromUser cu = some email)
    (h3 : findUserByEmail s.users email (some uid) = some dup)
    (hcp : (getAccountType cu).hasPassword = true)
    (hdp : (getAccountType dup).hasPassword = false)
    (hds : (getAccountType dup).hasSocial = true) :
    checkAndLinkAccountsBody uid s = handlePasswordToSocialLink uid dup email s := by
  unfold checkAndLinkAccountsBody
  simp [h1, h2, h3, hcp, hdp, hds]

theorem body_case3 (uid : String) (s : FbState) (cu dup : UserRecord) (email : String)
    (h1 : lookupByUid s.users uid = some cu)
    (h2 : getEmailFromUser cu = some email)
    (h3 : findUserByEmail s.users email (some uid) = some dup)
    (hcp : (getAccountType cu).hasPassword = false)
    (hcs : (getAccountType cu).hasSocial = true)
    (hdp : (getAccountType dup).hasPassword = false)
    (hds : (getAccountType dup).hasSocial = true) :
    checkAndLinkAccountsBody uid s
      = linkAccounts uid dup.uid cu LinkType.socialIntoSocial s := by
  unfold checkAndLinkAccountsBody
  simp [h1, h2, h3, hcp, hcs, hdp, hds]

theorem body_no_duplicate (uid : String) (s : FbState) (cu : UserRecord) (email : String)
    (h1 : lookupByUid s.users uid = some cu)
    (h2 : getEmailFromUser cu = some email)
    (h3 : findUserByEmail s.users email (some uid) = none) :
    checkAndLinkAccountsBody uid s
      = (Except.ok { success := true, linked := false
                   , message := "No other account found to link with" }, s) := by
  unfold checkAndLinkAccountsBody
  simp [h1, h2, h3]

/-! Helper lemmas about attach events. -/

theorem attachEventsOf_append (a b : List Event) :
    attachEventsOf (a ++ b) = attachEventsOf a ++ attachEventsOf b := by
  simp [attachEventsOf, List.filter_append]

theorem attachEventsOf_cons_false (e : Event) (l : List Event)
    (he : isAttachEvent e = false) : attachEventsOf (e :: l) = attachEventsOf l := by
  simp [attachEventsOf, List.filter_cons, he]

theorem attachEventsOf_attach_map (t : String) (ps : List (String × String)) :
    attachEventsOf (ps.map (fun q => Event.attachProvider t q.1 q.2))
      = ps.map (fun q => Event.attachProvider t q.1 q.2) := by
  induction ps with
  | nil => rfl
  | cons q rest ih =>
    simp only [List.map_cons]
    have : isAttachEvent (Event.attachProvider t q.1 q.2) = true := rfl
    simp [attachEventsOf, List.filter_cons, this]
    simpa [attachEventsOf] using ih

theorem providersToLink_fst_ne (u : UserRecord) (q : String × String)
    (hq : q ∈ providersToLink u) : q.1 ≠ "password" := by
  simp only [providersToLink, List.mem_map] at hq
  obtain ⟨p, hp, hq2⟩ := hq
  obtain ⟨_, hpne⟩ := List.mem_filter.mp hp
  rw [← hq2]
  simpa using hpne

/-- C1: in every execution of the merge path (linkAccounts), the deletion
of the losing source account strictly precedes every attach call that
targets the surviving account, and the bridging custom token is minted
only after that deletion: whenever a collaborator call appended to the
log by this execution at position k is an attach on the target or the
mint for the target, the deletion of the source occurs among the calls
strictly before position k. -/
theorem linkAccounts_delete_precedes_attach_and_mint
    (s : FbState) (src tgt : String) (u : UserRecord) (lt : LinkType)
    (k : Nat) (pid puid : String)
    (h : ((linkAccounts src tgt u lt s).2.trace.drop s.trace.length).getD k
           (Event.deleteUser "") = Event.attachProvider tgt pid puid
       ∨ ((linkAccounts src tgt u lt s).2.trace.drop s.trace.length).getD k
           (Event.deleteUser "") = Event.createCustomToken tgt) :
    Event.deleteUser src ∈
      ((linkAccounts src tgt u lt s).2.trace.drop s.trace.length).take k := by
  cases hsrc : lookupByUid s.users src with
  | none =>
    rw [linkAccounts_eq_err s src tgt u lt hsrc] at h
    simp only [List.drop_left] at h
    rcases k with _ | k
    · rcases h with h | h <;> simp at h
    · rcases h with h | h <;> simp [List.getD] at h
  | some u0 =>
    rw [linkAccounts_trace_ok s src tgt u u0 lt hsrc] at h ⊢
    rw [List.drop_left] at h ⊢
    rcases k with _ | k
    · rcases h with h | h <;> simp at h
    · simp [List.take_succ_cons]

/-- Witness for C1 at a concrete merge execution: the attach call logged
at position 1 is preceded by the deletion of the source account. -/
theorem linkAccounts_delete_precedes_attach_and_mint_witness :
    Event.deleteUser "uid-social" ∈
      (((linkAccounts "uid-social" "uid-pw" acctSocial LinkType.socialIntoPassword
          stPair).2.trace.drop stPair.trace.length).take 1) :=
  linkAccounts_delete_precedes_attach_and_mint stPair "uid-social" "uid-pw" acctSocial
    LinkType.socialIntoPassword 1 "google.com" "g-1" (Or.inl (by rfl))

/-- C6: once the losing account is deleted, a failing provider-attachment
call aborts neither the loop nor the overall merge: even when the backend
rejects the attachment of one of the provider records, every provider
record is still attempted (the appended call log lists an attach call for
each non-password record) and the operation returns success with a
bridging custom token for the surviving account. -/
theorem attach_failure_not_fatal
    (s : FbState) (src tgt : String) (u u0 : UserRecord) (lt : LinkType)
    (h : lookupByUid s.users src = some u0)
    (q : String × String) (_hq : q ∈ providersToLink u)
    (_hfail : s.attachFails.contains (tgt, q.1) = true) :
    (linkAccounts src tgt u lt s).1
      = Except.ok { success := true, linked := true
                  , customToken := some (mkCustomToken tgt)
                  , message := linkSuccessMessage lt }
    ∧ (linkAccounts src tgt u lt s).2.trace =
        s.trace ++ Event.deleteUser src ::
          ((providersToLink u).map (fun q2 => Event.attachProvider tgt q2.1 q2.2)
            ++ [Event.createCustomToken tgt]) := by
  refine ⟨?_, linkAccounts_trace_ok s src tgt u u0 lt h⟩
  rw [linkAccounts_eq_ok s src tgt u u0 lt h]

/-- Witness for C6: the backend rejects attaching google.com to the
surviving account, yet both provider records are attempted and the merge
reports success with the bridging token. -/
theorem attach_failure_not_fatal_witness :
    (linkAccounts "uid-two" "uid-pw" acctTwoSocial LinkType.socialIntoPassword stTwo).1
      = Except.ok { success := true, linked := true
                  , customToken := some (mkCustomToken "uid-pw")
                  , message := linkSuccessMessage LinkType.socialIntoPassword }
    ∧ (linkAccounts "uid-two" "uid-pw" acctTwoSocial LinkType.socialIntoPassword
        stTwo).2.trace =
        stTwo.trace ++ Event.deleteUser "uid-two" ::
          ((providersToLink acctTwoSocial).map
              (fun q2 => Event.attachProvider "uid-pw" q2.1 q2.2)
            ++ [Event.createCustomToken "uid-pw"]) :=
  attach_failure_not_fatal stTwo "uid-two" "uid-pw" acctTwoSocial acctTwoSocial
    LinkType.socialIntoPassword (by rfl) ("google.com", "g-1") (by decide) (by rfl)

/-- C7: the merge path attaches to the survivor exactly the losing
account's provider records whose kind is not password: the attach calls
it issues are precisely the non-password provider records of the source
account, and no attach call in its appended log targets another account
or carries the password kind. -/
theorem merge_attaches_exactly_nonpassword
    (s : FbState) (src tgt : String) (u u0 : UserRecord) (lt : LinkType)
    (h : lookupByUid s.users src = some u0) :
    attachEventsOf ((linkAccounts src tgt u lt s).2.trace.drop s.trace.length)
      = (u.providerData.filter (fun p => p.providerId != "password")).map
          (fun p => Event.attachProvider tgt p.providerId p.uid)
    ∧ (∀ t2 pid puid, Event.attachProvider t2 pid puid ∈
         (linkAccounts src tgt u lt s).2.trace.drop s.trace.length →
         t2 = tgt ∧ pid ≠ "password") := by
  rw [linkAccounts_trace_ok s src tgt u u0 lt h, List.drop_left]
  constructor
  · rw [attachEventsOf_cons_false (Event.deleteUser src) _ rfl, attachEventsOf_append,
        attachEventsOf_attach_map]
    have hmint : attachEventsOf [Event.createCustomToken tgt] = [] := rfl
    rw [hmint, List.append_nil]
    simp [providersToLink, List.map_map, Function.comp]
  · intro t2 pid puid hmem
    rcases List.mem_cons.mp hmem with h0 | h0
    · simp at h0
    · rcases List.mem_append.mp h0 with h1 | h1
      · obtain ⟨q, hq, heq⟩ := List.mem_map.mp h1
        have hinj : tgt = t2 ∧ q.1 = pid ∧ q.2 = puid := by
          injection heq with ha hb hc
          exact ⟨ha, hb, hc⟩
        refine ⟨hinj.1.symm, ?_⟩
        rw [← hinj.2.1]
        exact providersToLink_fst_ne u q hq
      · simp at h1

/-- Witness for C7: concrete attach calls of the merge at stTwo, and one
attach event of that log shown to target the survivor with a
non-password kind. -/
theorem merge_attaches_exactly_nonpassword_witness :
    attachEventsOf ((linkAccounts "uid-two" "uid-pw" acctTwoSocial
        LinkType.socialIntoPassword stTwo).2.trace.drop stTwo.trace.length)
      = (acctTwoSocial.providerData.filter (fun p => p.providerId != "password")).map
          (fun p => Event.attachProvider "uid-pw" p.providerId p.uid)
    ∧ ("uid-pw" = "uid-pw" ∧ "google.com" ≠ "password") :=
  ⟨(merge_attaches_exactly_nonpassword stTwo "uid-two" "uid-pw" acctTwoSocial
      acctTwoSocial LinkType.socialIntoPassword (by rfl)).1,
   (merge_attaches_exactly_nonpassword stTwo "uid-two" "uid-pw" acctTwoSocial
      acctTwoSocial LinkType.socialIntoPassword (by rfl)).2 "uid-pw" "google.com" "g-1"
      (by decide)⟩

/-- C5 counterexample: a second merge call for the same pair, after the
losing account is already deleted, does NOT treat the delete step's
not-found outcome as benign: the first merge succeeds, the retry of the
merge execution errors at the delete step with user-not-found, and the
public operation reports failure (success = false), contradicting the
claim that the operation does not report failure. -/
theorem merge_retry_reports_failure :
    (linkAccounts "uid-social" "uid-pw" acctSocial LinkType.socialIntoPassword stPair).1
      = Except.ok { success := true, linked := true
                  , customToken := some (mkCustomToken "uid-pw")
                  , message := linkSuccessMessage LinkType.socialIntoPassword }
    ∧ (linkAccounts "uid-social" "uid-pw" acctSocial LinkType.socialIntoPassword
        stMerged).1 = Except.error userNotFoundErr
    ∧ (checkAndLinkAccounts "uid-social" stMerged).1.success = false :=
  ⟨rfl, rfl, rfl⟩

/-- C5 (amended): when merge execution runs and the losing account is
already gone, the delete step's not-found outcome is a hard failure, not
a benign one: linkAccounts propagates the user-not-found error (so the
public operation reports failure), while making no change to the user
records and issuing no attach call, so provider attachments are at least
not duplicated. -/
theorem linkAccounts_missing_source_hard_failure
    (s : FbState) (src tgt : String) (u : UserRecord) (lt : LinkType)
    (h : lookupByUid s.users src = none) :
    (linkAccounts src tgt u lt s).1 = Except.error userNotFoundErr
    ∧ (linkAccounts src tgt u lt s).2.users = s.users
    ∧ attachEventsOf ((linkAccounts src tgt u lt s).2.trace.drop s.trace.length)
        = [] := by
  rw [linkAccounts_eq_err s src tgt u lt h]
  refine ⟨rfl, rfl, ?_⟩
  simp only [List.drop_left]
  rfl

/-- Witness for C5's amended statement at the concrete post-merge state. -/
theorem linkAccounts_missing_source_hard_failure_witness :
    (linkAccounts "uid-social" "uid-pw" acctSocial LinkType.socialIntoPassword
        stMerged).1 = Except.error userNotFoundErr
    ∧ (linkAccounts "uid-social" "uid-pw" acctSocial LinkType.socialIntoPassword
        stMerged).2.users = stMerged.users
    ∧ attachEventsOf ((linkAccounts "uid-social" "uid-pw" acctSocial
        LinkType.socialIntoPassword stMerged).2.trace.drop stMerged.trace.length)
        = [] :=
  linkAccounts_missing_source_hard_failure stMerged "uid-social" "uid-pw" acctSocial
    LinkType.socialIntoPassword (by rfl)

/-- C2: when reconciliation decides MergeNow (case 1: current is
social-only and the duplicate has a password; case 3: both accounts are
social-only), the current account is the one deleted and the pre-existing
duplicate survives: the call log shows the deletion of the current uid
followed by attach calls of the current account's non-password provider
records onto the duplicate's uid, the bridging custom token is minted for
the duplicate's uid and returned, the current uid is gone from the
backend afterwards, and the duplicate account is still present. -/
theorem mergeNow_current_deleted_duplicate_survives
    (s : FbState) (uid email : String) (cu dup : UserRecord)
    (h1 : lookupByUid s.users uid = some cu)
    (h2 : getEmailFromUser cu = some email)
    (h3 : findUserByEmail s.users email (some uid) = some dup)
    (h4 : ((getAccountType cu).hasPassword = false
            ∧ (getAccountType dup).hasPassword = true)
        ∨ ((getAccountType cu).hasPassword = false
            ∧ (getAccountType cu).hasSocial = true
            ∧ (getAccountType dup).hasPassword = false
            ∧ (getAccountType dup).hasSocial = true)) :
    (checkAndLinkAccounts uid s).1.success = true
    ∧ (checkAndLinkAccounts uid s).1.linked = true
    ∧ (checkAndLinkAccounts uid s).1.customToken = some (mkCustomToken dup.uid)
    ∧ (checkAndLinkAccounts uid s).2.trace
        = s.trace ++ Event.deleteUser uid ::
            ((providersToLink cu).map (fun q => Event.attachProvider dup.uid q.1 q.2)
              ++ [Event.createCustomToken dup.uid])
    ∧ ((checkAndLinkAccounts uid s).2.users).any (fun v => v.uid == uid) = false
    ∧ ((checkAndLinkAccounts uid s).2.users).any (fun v => v.uid == dup.uid) = true
    ∧ dup.uid ≠ uid := by
  obtain ⟨hdmem, hdne, _⟩ := findUserByEmail_sound s.users email (some uid) dup h3
  have hBne : dup.uid ≠ uid := fun hc => hdne (by rw [hc])
  have hbody : ∃ lt : LinkType,
      checkAndLinkAccountsBody uid s = linkAccounts uid dup.uid cu lt s := by
    rcases h4 with ⟨hcp, hdp⟩ | ⟨hcp, hcs, hdp, hds⟩
    · exact ⟨LinkType.socialIntoPassword, body_case1 uid s cu dup email h1 h2 h3 hcp hdp⟩
    · exact ⟨LinkType.socialIntoSocial,
        body_case3 uid s cu dup email h1 h2 h3 hcp hcs hdp hds⟩
  obtain ⟨lt, hbody⟩ := hbody
  have heq := linkAccounts_eq_ok s uid dup.uid cu cu lt h1
  have hfull : checkAndLinkAccounts uid s
      = ({ success := true, linked := true, customToken := some (mkCustomToken dup.uid)
         , message := linkSuccessMessage lt },
         (linkAccounts uid dup.uid cu lt s).2) := by
    apply checkAndLinkAccounts_of_body
    rw [hbody, heq]
  rw [hfull]
  refine ⟨rfl, rfl, rfl, ?_, ?_, ?_, hBne⟩
  · exact linkAccounts_trace_ok s uid dup.uid cu cu lt h1
  · rw [linkAccounts_users_any s uid dup.uid cu cu lt uid h1]
    exact removeUid_any_self s.users uid
  · rw [linkAccounts_users_any s uid dup.uid cu cu lt dup.uid h1]
    rw [removeUid_any_other s.users uid dup.uid hBne]
    exact List.any_eq_true.mpr ⟨dup, hdmem, by simp⟩

/-- Witness for C2: merging the social-only account into the password
account at the concrete pair state mints the token for the survivor and
removes the current uid from the backend. -/
theorem mergeNow_current_deleted_duplicate_survives_witness :
    (checkAndLinkAccounts "uid-social" stPair).1.customToken
        = some (mkCustomToken acctPassword.uid)
    ∧ ((checkAndLinkAccounts "uid-social" stPair).2.users).any
        (fun v => v.uid == "uid-social") = false :=
  ⟨(mergeNow_current_deleted_duplicate_survives stPair "uid-social" "user@example.com"
      acctSocial acctPassword rfl rfl rfl (Or.inl ⟨rfl, rfl⟩)).2.2.1,
   (mergeNow_current_deleted_duplicate_survives stPair "uid-social" "user@example.com"
      acctSocial acctPassword rfl rfl rfl (Or.inl ⟨rfl, rfl⟩)).2.2.2.2.1⟩

/-- C3 counterexample: the account uid-social already holds a google.com
provider record, so per the claim, reconciling another google.com sign-in
for it must yield SignIn with no merge and no deletion regardless of the
other account sharing its email; but checkAndLinkAccounts ignores which
provider triggered the check, merges it into the password account, and
deletes it. -/
theorem reauth_existing_provider_still_merges :
    acctSocial.providerData.any (fun p => p.providerId == "google.com") = true
    ∧ (checkAndLinkAccounts "uid-social" stPair).1.linked = true
    ∧ ((checkAndLinkAccounts "uid-social" stPair).2.users).any
        (fun v => v.uid == "uid-social") = false :=
  ⟨rfl, rfl, rfl⟩

/-- C3 (amended): re-authenticating an account yields the SignIn outcome
(no merge, no deletion, no verification requirement, state untouched)
provided no other account shares its effective email; checkAndLinkAccounts
never consults which provider kind triggered the check, so when another
account does share the email, the password/social classification alone
decides and a merge can run even though the account already holds that
provider kind. -/
theorem reauth_signin_only_without_duplicate
    (uid : String) (s : FbState) (cu : UserRecord) (email : String)
    (h1 : lookupByUid s.users uid = some cu)
    (h2 : getEmailFromUser cu = some email)
    (h3 : findUserByEmail s.users email (some uid) = none) :
    checkAndLinkAccounts uid s
      = ({ success := true, linked := false
         , message := "No other account found to link with" }, s) :=
  checkAndLinkAccounts_of_body uid s _ s (body_no_duplicate uid s cu email h1 h2 h3)

/-- Witness for C3's amended statement: with the social account alone in
the backend, reconciliation is a no-op SignIn. -/
theorem reauth_signin_only_without_duplicate_witness :
    checkAndLinkAccounts "uid-social" stSolo
      = ({ success := true, linked := false
         , message := "No other account found to link with" }, stSolo) :=
  reauth_signin_only_without_duplicate "uid-social" stSolo acctSocial
    "user@example.com" rfl rfl rfl

/-- C4: when the current account has a password and the duplicate is
social-only with at least one social provider, reconciliation deletes the
current password account from the backend and returns a needs-verification
outcome carrying the duplicate's non-password provider kinds and the
shared email; the final state shows only the deletion in the call log and
no attach call, so nothing is attached to the duplicate account. -/
theorem passwordToSocial_requires_verification
    (s : FbState) (uid email : String) (cu dup : UserRecord)
    (h1 : lookupByUid s.users uid = some cu)
    (h2 : getEmailFromUser cu = some email)
    (h3 : findUserByEmail s.users email (some uid) = some dup)
    (h4 : (getAccountType cu).hasPassword = true)
    (h5 : (getAccountType dup).hasPassword = false)
    (h6 : (getAccountType dup).hasSocial = true) :
    checkAndLinkAccounts uid s
      = ({ success := true, linked := false, customToken := none
         , message := "This email is already registered with "
             ++ String.intercalate ", " ((dup.providerData.filter
                 (fun p => p.providerId != "password")).map (fun p => p.providerId))
             ++ ". Please verify your email to add a password."
         , needsVerification := some true
         , providers := some ((dup.providerData.filter
             (fun p => p.providerId != "password")).map (fun p => p.providerId))
         , email := some email },
         { users := removeUid s.users uid, attachFails := s.attachFails
         , trace := s.trace ++ [Event.deleteUser uid] }) := by
  apply checkAndLinkAccounts_of_body
  rw [body_case2 uid s cu dup email h1 h2 h3 h4 h5 h6,
    handlePasswordToSocialLink_eq_ok s uid dup email cu h1]

/-- Witness for C4 at the concrete pair state, reconciling the password
account: the password account is deleted, the outcome carries the
google.com provider kind and the shared email, and the call log holds
only the deletion. -/
theorem passwordToSocial_requires_verification_witness :
    checkAndLinkAccounts "uid-pw" stPair
      = ({ success := true, linked := false, customToken := none
         , message := "This email is already registered with "
             ++ String.intercalate ", " ((acctSocial.providerData.filter
                 (fun p => p.providerId != "password")).map (fun p => p.providerId))
             ++ ". Please verify your email to add a password."
         , needsVerification := some true
         , providers := some ((acctSocial.providerData.filter
             (fun p => p.providerId != "password")).map (fun p => p.providerId))
         , email := some "user@example.com" },
         { users := removeUid stPair.users "uid-pw", attachFails := stPair.attachFails
         , trace := stPair.trace ++ [Event.deleteUser "uid-pw"] }) :=
  passwordToSocial_requires_verification stPair "uid-pw" "user@example.com"
    acctPassword acctSocial rfl rfl rfl rfl rfl rfl

/-- C10: checkAndLinkAccounts never propagates an exception: it is a
total function into in-band results, and whenever its body (the code
inside the try block, covering the get-user, lookup, delete, attach and
token-minting collaborator calls) throws an error with a non-empty
message, the returned value is success = false, linked = false, with the
error's message. -/
theorem checkAndLinkAccounts_inband_errors
    (uid : String) (s : FbState) (e : Err) (s1 : FbState)
    (hrun : checkAndLinkAccountsBody uid s = (Except.error e, s1))
    (hmsg : e.message ≠ "") :
    checkAndLinkAccounts uid s
      = ({ success := false, linked := false, message := e.message }, s1) := by
  simp only [checkAndLinkAccounts, hrun]
  have hb : ¬ ((e.message == "") = true) := by simp [hmsg]
  rw [if_neg hb]

/-- Witness for C10: on the empty backend the get-user step throws
user-not-found and the service converts it to an in-band failure with
that error's message. -/
theorem checkAndLinkAccounts_inband_errors_witness :
    checkAndLinkAccounts "ghost" stEmpty
      = ({ success := false, linked := false, message := userNotFoundErr.message },
         stEmpty) :=
  checkAndLinkAccounts_inband_errors "ghost" stEmpty userNotFoundErr stEmpty rfl
    (by decide)

/-! Helper lemmas about the code store. -/

theorem storeErase_cons (kv : String × StoredCode) (rest : CodeStore) (k : String) :
    storeErase (kv :: rest) k =
      if kv.1 == k then storeErase rest k else kv :: storeErase rest k := by
  simp only [storeErase, List.filter_cons, bne]
  cases hk : kv.1 == k <;> simp

theorem storeGet_storeErase (m : CodeStore) (k : String) :
    storeGet (storeErase m k) k = none := by
  induction m with
  | nil => rfl
  | cons kv rest ih =>
    rw [storeErase_cons]
    cases hk : kv.1 == k
    · show storeGet (kv :: storeErase rest k) k = none
      simp only [storeGet, List.find?]
      rw [hk]
      exact ih
    · show storeGet (storeErase rest k) k = none
      exact ih

/-- C8: consume (the verifyCode operation) returns true and deletes the
stored entry if and only if an unexpired entry exists under the
lower-cased email whose stored code equals the supplied code exactly; in
every other case (no entry, expired entry, mismatched code) it returns
false; and consumption is single-use: after a successful consume, a
second call with the same email and code returns false at any time. -/
theorem verifyCode_single_use_spec (now : Nat) (email code : String) (m : CodeStore) :
    ((verifyCode now email code m).1 = true ↔
       ∃ st, storeGet m (toLower email) = some st
          ∧ now ≤ st.expiresAt ∧ st.code = code)
    ∧ ((verifyCode now email code m).1 = true →
         storeGet (verifyCode now email code m).2 (toLower email) = none)
    ∧ ((verifyCode now email code m).1 = true →
         ∀ now2, (verifyCode now2 email code (verifyCode now email code m).2).1
           = false) := by
  cases hg : storeGet m (toLower email) with
  | none =>
    have hvc : verifyCode now email code m = (false, m) := by
      simp only [verifyCode, hg]
    rw [hvc]
    refine ⟨?_, ?_, ?_⟩
    · apply iff_of_false (by simp)
      rintro ⟨st, hst, -, -⟩
      exact Option.noConfusion hst
    · intro h; cases h
    · intro h; cases h
  | some st =>
    have hvc : verifyCode now email code m =
        (if now > st.expiresAt then (false, storeErase m (toLower email))
         else if st.code != code then (false, m)
         else (true, storeErase m (toLower email))) := by
      simp only [verifyCode, hg]
    by_cases hexp : now > st.expiresAt
    · rw [hvc, if_pos hexp]
      refine ⟨?_, ?_, ?_⟩
      · apply iff_of_false (by simp)
        rintro ⟨st2, hst2, hle, -⟩
        obtain rfl := Option.some.inj hst2
        omega
      · intro h; cases h
      · intro h; cases h
    · have hle : now ≤ st.expiresAt := Nat.le_of_not_lt hexp
      by_cases hcode : st.code = code
      · have hbne : ¬ ((st.code != code) = true) := by simp [hcode]
        rw [hvc, if_neg hexp, if_neg hbne]
        refine ⟨?_, ?_, ?_⟩
        · exact iff_of_true rfl ⟨st, rfl, hle, hcode⟩
        · intro _
          exact storeGet_storeErase m (toLower email)
        · intro _ now2
          have hg2 : storeGet (storeErase m (toLower email)) (toLower email) = none :=
            storeGet_storeErase m (toLower email)
          simp only [verifyCode, hg2]
      · have hbne : (st.code != code) = true := by simp [hcode]
        rw [hvc, if_neg hexp, if_pos hbne]
        refine ⟨?_, ?_, ?_⟩
        · apply iff_of_false (by simp)
          rintro ⟨st2, hst2, -, hc2⟩
          obtain rfl := Option.some.inj hst2
          exact hcode hc2
        · intro h; cases h
        · intro h; cases h

/-- Witness for C8: a code issued for User@Example.com is consumed once
under a differently-cased email, the entry is gone afterwards, and the
second consume with the same pair fails. -/
theorem verifyCode_single_use_spec_witness :
    (verifyCode 1000 "user@EXAMPLE.com" "123456" sampleStore).1 = true
    ∧ storeGet (verifyCode 1000 "user@EXAMPLE.com" "123456" sampleStore).2
        (toLower "user@EXAMPLE.com") = none
    ∧ (verifyCode 2000 "user@EXAMPLE.com" "123456"
        (verifyCode 1000 "user@EXAMPLE.com" "123456" sampleStore).2).1 = false := by
  have h := verifyCode_single_use_spec 1000 "user@EXAMPLE.com" "123456" sampleStore
  have h1 : (verifyCode 1000 "user@EXAMPLE.com" "123456" sampleStore).1 = true :=
    h.1.mpr ⟨{ code := "123456", expiresAt := 300000 }, by rfl, by decide, rfl⟩
  exact ⟨h1, h.2.1 h1, h.2.2 h1 2000⟩

/-- C9: findUserByEmail first attempts the direct backend lookup by the
top-level email (a non-excluded direct hit is returned as-is); when that
lookup reports not-found it falls back to scanning all accounts by the
effective-email derivation over provider records; the result is sound
(the account matches the email and is never the excluded uid) and the
not-found answer is complete (no non-excluded account carries the email);
at most one account is ever returned. -/
theorem findUserByEmail_spec (users : List UserRecord) (email : String)
    (ex : Option String) :
    (∀ u, findUserByEmail users email ex = some u →
        u ∈ users ∧ ex ≠ some u.uid ∧ getEmailFromUser u = some email)
    ∧ (findUserByEmail users email ex = none →
        ∀ u ∈ users, ex ≠ some u.uid → getEmailFromUser u ≠ some email)
    ∧ (∀ v, lookupByTopEmail users email = some v → ex ≠ some v.uid →
        findUserByEmail users email ex = some v)
    ∧ (lookupByTopEmail users email = none →
        findUserByEmail users email ex = scanForEmail email ex users) :=
  ⟨fun u h => findUserByEmail_sound users email ex u h,
   findUserByEmail_none_complete users email ex,
   fun v hd hne => findUserByEmail_direct_hit users email ex v hd hne,
   findUserByEmail_fallback users email ex⟩

/-- Witness for C9: the provider-email fallback finds the social account
whose email lives only in its provider record, and the found account
matches the searched email and is not the excluded uid. -/
theorem findUserByEmail_spec_witness :
    acctSocial ∈ [acctSocial] ∧ (none : Option String) ≠ some acctSocial.uid
    ∧ getEmailFromUser acctSocial = some "user@example.com" :=
  (findUserByEmail_spec [acctSocial] "user@example.com" none).1 acctSocial rfl

end FirebaseAuth
